import Mathlib

/-!
Verification of the batch image-processing engine of the Image-cropping
repository (src/image_processor.py), shallowly embedded in Lean 4.

Embedding conventions:
* File-system and image-codec behaviour is abstracted by oracles
  (`TaskEnv`, `PoolEnv`): for a fixed output directory, target size, mode
  and quality, the oracle records whether processing a given input/output
  path pair succeeds, and with which error message otherwise.  Quantifying
  over all oracles covers all parameter choices and file contents.
* Python floats in the progress formula `(i + 1) / total * 100` are
  modelled by exact rationals; division and multiplication are monotone in
  both models and `total / total * 100` is exactly `100` in both.
* `os.path` functions are modelled in their posix flavour
  (separator `/`), faithfully including the leading-dot rule of
  `os.path.splitext`.
* The progress callback is modelled by collecting the emitted events into
  a list, in invocation order; `cb = true` means a callback was supplied.
* Image pixel data is abstracted to dimensions; the dimension arithmetic
  of `PIL.Image.thumbnail` (including its `round_aspect` rounding) is
  modelled exactly, with float division replaced by exact rational
  division.
-/

namespace ImageCrop

/-- Python `str.lower`, restricted to the ASCII range that can occur in the
extension sets compared against. -/
def lowerStr (s : String) : String :=
  String.mk (s.data.map Char.toLower)

/-- Python `str.rfind`: index of the last occurrence of `c`, `-1` if absent. -/
def rfind (c : Char) (l : List Char) : Int :=
  match l.reverse.findIdx? (fun d => d = c) with
  | none => -1
  | some j => (l.length : Int) - 1 - (j : Int)

/-- The extension component of `os.path.splitext` (posixpath): the suffix
from the last dot, provided that dot lies after the last `/` and the
basename does not consist solely of leading dots up to it. -/
def splitextExt (p : List Char) : List Char :=
  let sepIndex := rfind '/' p
  let dotIndex := rfind '.' p
  if sepIndex < dotIndex then
    let stemPart := (p.drop (sepIndex + 1).toNat).take (dotIndex - sepIndex - 1).toNat
    if stemPart.any (fun d => d != '.') then p.drop dotIndex.toNat else []
  else []

/-- `os.path.basename` (posixpath): the suffix after the last `/`. -/
def basename (p : String) : String :=
  String.mk ((p.data.reverse.takeWhile (fun d => d != '/')).reverse)

/-- `os.path.join` (posixpath) for two components. -/
def path_join (a b : String) : String :=
  if b.data.head? = some '/' then b
  else if a.data = [] ∨ a.data.getLast? = some '/' then a ++ b
  else a ++ "/" ++ b

/-- The `SUPPORTED_FORMATS` set shared by `ImageProcessor` and
`MultiProcessImageProcessor`. -/
def SUPPORTED_FORMATS : List String :=
  [".jpg", ".jpeg", ".png", ".bmp", ".tiff", ".webp"]

/-- `is_supported_format`: the lower-cased `splitext` extension is in the
supported set. -/
def is_supported_format (file_path : String) : Bool :=
  SUPPORTED_FORMATS.contains (lowerStr (String.mk (splitextExt file_path.data)))

/-- The output file name `<stem>_resized<ext>` derived from the basename of
the input path. -/
def output_filename (input_path : String) : String :=
  let filename := basename input_path
  let ext := splitextExt filename.data
  let name := filename.data.take (filename.data.length - ext.length)
  String.mk name ++ "_resized" ++ String.mk ext

/-- Full output path: `os.path.join(output_dir, output_filename)`. -/
def out_path (output_dir input_path : String) : String :=
  path_join output_dir (output_filename input_path)

/-- One progress-callback invocation `(progress, filename, success)`. -/
structure ProgressEvent where
  percentage : ℚ
  filename : String
  success : Bool
deriving DecidableEq

/-- The mutable instance state `self.processed_count` / `self.failed_files`
of a processor object. -/
structure ProcState where
  processed_count : Nat
  failed_files : List (String × String)
deriving DecidableEq

/-- The result dictionary of `batch_process`.  `processing_time` and
`workers_used` are `none` when the corresponding keys are absent from the
returned dictionary. -/
structure BatchResult where
  total : Nat
  processed : Nat
  failed : Nat
  failed_files : List (String × String)
  processing_time : Option ℚ
  workers_used : Option Nat
deriving DecidableEq

/-- Environment oracle for `ImageProcessor.process_single_image`: for the
ambient output directory, target size, mode and quality, `succeeds in out`
tells whether processing input path `in` to output path `out` completes
without exception, and `errMsg in out` is the exception text otherwise. -/
structure TaskEnv where
  succeeds : String → String → Bool
  errMsg : String → String → String

/-- `ImageProcessor.process_single_image`: on success it increments
`processed_count` and returns `True`; on exception it appends
`(input_path, str(e))` to `failed_files` and returns `False`. -/
def process_single_image (E : TaskEnv) (st : ProcState)
    (input_path output_path : String) : ProcState × Bool :=
  if E.succeeds input_path output_path then
    ({ st with processed_count := st.processed_count + 1 }, true)
  else
    ({ st with failed_files := st.failed_files ++ [(input_path, E.errMsg input_path output_path)] },
     false)

/-- Result of running a batch loop: final instance state, emitted progress
events (in order), and the `(input, output)` pairs on which the
single-image task was invoked. -/
structure RunOut where
  state : ProcState
  events : List ProgressEvent
  invoked : List (String × String)
deriving DecidableEq

/-- The `for i, input_path in enumerate(file_list)` loop of
`ImageProcessor.batch_process`: unsupported files are recorded as failures
and skipped (`continue`, before the progress callback); supported files go
through `process_single_image` and then emit one progress event
`((i+1)/total*100, basename, success)` when a callback is present. -/
def seqLoop (E : TaskEnv) (output_dir : String) (cb : Bool) (total : Nat) :
    List String → Nat → ProcState → RunOut
  | [], _, st => ⟨st, [], []⟩
  | input_path :: rest, i, st =>
    if is_supported_format input_path then
      let filename := basename input_path
      let output_path := out_path output_dir input_path
      let st2 := (process_single_image E st input_path output_path).1
      let success := (process_single_image E st input_path output_path).2
      let r := seqLoop E output_dir cb total rest (i + 1) st2
      ⟨r.state,
       (if cb then [⟨((i : ℚ) + 1) / (total : ℚ) * 100, filename, success⟩] else []) ++ r.events,
       (input_path, output_path) :: r.invoked⟩
    else
      let st2 : ProcState :=
        { st with failed_files := st.failed_files ++ [(input_path, "不支持的文件格式")] }
      let r := seqLoop E output_dir cb total rest (i + 1) st2
      ⟨r.state, r.events, r.invoked⟩

/-- Result of one `batch_process` call: the final instance state, the
returned dictionary, the progress events, and the task invocations. -/
structure BatchOut where
  state : ProcState
  result : BatchResult
  events : List ProgressEvent
  invoked : List (String × String)
deriving DecidableEq

/-- `ImageProcessor.batch_process`: resets the instance counters (the
incoming state `init` is discarded), runs the file loop, and returns the
four-key result dictionary (no `processing_time`, no `workers_used`). -/
def seq_batch_process (E : TaskEnv) (init : ProcState) (file_list : List String)
    (output_dir : String) (cb : Bool) : BatchOut :=
  let st0 : ProcState := ⟨0, []⟩
  let total_files := file_list.length
  let r := seqLoop E output_dir cb total_files file_list 0 st0
  ⟨r.state,
   ⟨total_files, r.state.processed_count, r.state.failed_files.length, r.state.failed_files,
    none, none⟩,
   r.events, r.invoked⟩

/-- Outcome of one parallel task as seen from the submitting side: the
worker returned `(True, path, None)`, the worker returned
`(False, path, error)`, or `future.result()` itself raised. -/
inductive TaskOutcome where
  | ok
  | err (msg : String)
  | exn (msg : String)
deriving DecidableEq

/-- Environment oracle for `process_single_image_worker` runs: for the
ambient parameters, the outcome of the task on a given
`(input_path, output_path)` pair. -/
structure PoolEnv where
  outcome : String → String → TaskOutcome

/-- The `for future in as_completed(future_to_task)` loop of
`MultiProcessImageProcessor.batch_process`, consuming tasks in completion
order (each list entry carries its outcome).  Every completion increments
`completed_count`, updates the counters, and emits one progress event
`(completed_count/total*100, basename, success)` when a callback is
present; a raising `future.result()` is recorded as
`(input_path, "处理异常: " + str(e))` with a `False` event. -/
def multiLoop (cb : Bool) (total_valid : Nat) :
    List (String × String × TaskOutcome) → Nat → ProcState → ProcState × List ProgressEvent
  | [], _, st => (st, [])
  | t :: rest, c, st =>
    let st2 : ProcState :=
      match t.2.2 with
      | TaskOutcome.ok => { st with processed_count := st.processed_count + 1 }
      | TaskOutcome.err m => { st with failed_files := st.failed_files ++ [(t.1, m)] }
      | TaskOutcome.exn m =>
          { st with failed_files := st.failed_files ++ [(t.1, "处理异常: " ++ m)] }
    let success : Bool :=
      match t.2.2 with
      | TaskOutcome.ok => true
      | TaskOutcome.err _ => false
      | TaskOutcome.exn _ => false
    let r := multiLoop cb total_valid rest (c + 1) st2
    (r.1,
     (if cb then [⟨((c : ℚ) + 1) / (total_valid : ℚ) * 100, basename t.1, success⟩] else [])
       ++ r.2)

/-- The files of the input list with supported extensions, in input order
(the `valid_files` accumulator of the filtering loop). -/
def valid_files (file_list : List String) : List String :=
  file_list.filter (fun p => is_supported_format p)

/-- The `(path, "不支持的文件格式")` failures recorded by the filtering
loop, in input order. -/
def unsupported_failures (file_list : List String) : List (String × String) :=
  (file_list.filter (fun p => !(is_supported_format p))).map
    (fun p => (p, "不支持的文件格式"))

/-- The task tuples submitted to the pool, projected to their
`(input_path, output_path)` components (target size, mode and quality are
ambient). -/
def tasks_of (output_dir : String) (file_list : List String) : List (String × String) :=
  (valid_files file_list).map (fun p => (p, out_path output_dir p))

/-- Result of one `MultiProcessImageProcessor.batch_process` call:
`pool_attempted` records whether control reached the
`ProcessPoolExecutor` construction. -/
structure MultiBatchOut where
  state : ProcState
  result : BatchResult
  events : List ProgressEvent
  tasks : List (String × String)
  pool_attempted : Bool
deriving DecidableEq

/-- `MultiProcessImageProcessor.batch_process`.  Parameters beyond the
source signature model the environment: `pool_fails` is true when
constructing the process pool raises (triggering
`_fallback_single_process`, which runs a fresh `ImageProcessor` on the
full original file list), `completion_order` is the order in which
`as_completed` yields the submitted tasks, and `elapsed` is the wall-clock
duration `time.time() - start_time` measured by the run.  When no file
survives the format filter the method returns early, before any pool is
constructed, with a four-key dictionary. -/
def multi_batch_process (E : PoolEnv) (F : TaskEnv) (init : ProcState)
    (max_workers : Nat) (pool_fails : Bool) (completion_order : List (String × String))
    (elapsed : ℚ) (file_list : List String) (output_dir : String) (cb : Bool) :
    MultiBatchOut :=
  let st1 : ProcState := ⟨0, unsupported_failures file_list⟩
  if (valid_files file_list).length = 0 then
    ⟨st1,
     ⟨file_list.length, 0, st1.failed_files.length, st1.failed_files, none, none⟩,
     [], [], false⟩
  else if pool_fails then
    ⟨st1, (seq_batch_process F ⟨0, []⟩ file_list output_dir cb).result,
     (seq_batch_process F ⟨0, []⟩ file_list output_dir cb).events,
     tasks_of output_dir file_list, true⟩
  else
    let r := multiLoop cb (valid_files file_list).length
      (completion_order.map (fun t => (t.1, t.2, E.outcome t.1 t.2))) 0 st1
    ⟨r.1,
     ⟨file_list.length, r.1.processed_count, r.1.failed_files.length, r.1.failed_files,
      some elapsed, some max_workers⟩,
     r.2, tasks_of output_dir file_list, true⟩

/-- Image dimensions (pixel data abstracted away). -/
structure ImgSize where
  width : Nat
  height : Nat
deriving DecidableEq

/-- The `ResizeMode` enumeration; `keepAspect` models the source's
KEEP_RATIO variant. -/
inductive ResizeMode where
  | stretch
  | keepAspect
  | crop
deriving DecidableEq

/-- Pillow's `round_aspect(number, key)`:
`max(min(floor(number), ceil(number), key=key), 1)`; Python `min` keeps the
first argument on ties. -/
def roundAspect (q : ℚ) (key : Int → ℚ) : Int :=
  max (if key ⌊q⌋ ≤ key ⌈q⌉ then ⌊q⌋ else ⌈q⌉) 1

/-- Dimension arithmetic of `PIL.Image.thumbnail` for a target box
`(x, y)`: if the box contains the image it is left unchanged, otherwise it
is scaled to fit, preserving aspect ratio, with Pillow's `round_aspect`
rounding and a minimum of 1 pixel; float division is modelled as exact
rational division. -/
def thumbnailDims (image : ImgSize) (x y : Nat) : ImgSize :=
  if x ≥ image.width ∧ y ≥ image.height then image
  else
    let aspect : ℚ := (image.width : ℚ) / (image.height : ℚ)
    if (x : ℚ) / (y : ℚ) ≥ aspect then
      let nx := roundAspect ((y : ℚ) * aspect) (fun n => |aspect - (n : ℚ) / (y : ℚ)|)
      ⟨nx.toNat, y⟩
    else
      let ny := roundAspect ((x : ℚ) / aspect)
        (fun n => if n = 0 then 0 else |aspect - (x : ℚ) / (n : ℚ)|)
      ⟨x, ny.toNat⟩

/-- Result of the resize policy: the dimensions of the returned image and,
in KEEP_RATIO mode, the integer offset at which the scaled image was
pasted onto the white canvas. -/
structure ResizedImage where
  img : ImgSize
  pasteOffset : Option (Int × Int)
deriving DecidableEq

/-- `ImageProcessor.resize_image`: STRETCH resamples directly to the
target, KEEP_RATIO shrinks with `thumbnail` and pastes centred (Python
floor division `//`, modelled by `Int.fdiv`) on a white target-sized
canvas, CROP uses `ImageOps.fit` which returns exactly the requested
size. -/
def resize_image (image : ImgSize) (target_size : Nat × Nat) :
    ResizeMode → ResizedImage
  | ResizeMode.stretch => ⟨⟨target_size.1, target_size.2⟩, none⟩
  | ResizeMode.keepAspect =>
      let t := thumbnailDims image target_size.1 target_size.2
      let x : Int := Int.fdiv ((target_size.1 : Int) - (t.width : Int)) 2
      let y : Int := Int.fdiv ((target_size.2 : Int) - (t.height : Int)) 2
      ⟨⟨target_size.1, target_size.2⟩, some (x, y)⟩
  | ResizeMode.crop => ⟨⟨target_size.1, target_size.2⟩, none⟩

/-- The resize block inlined in `process_single_image_worker`
(lines 157-176), a verbatim copy of the `resize_image` logic. -/
def worker_resize (image : ImgSize) (target_size : Nat × Nat) :
    ResizeMode → ResizedImage
  | ResizeMode.stretch => ⟨⟨target_size.1, target_size.2⟩, none⟩
  | ResizeMode.keepAspect =>
      let t := thumbnailDims image target_size.1 target_size.2
      let x : Int := Int.fdiv ((target_size.1 : Int) - (t.width : Int)) 2
      let y : Int := Int.fdiv ((target_size.2 : Int) - (t.height : Int)) 2
      ⟨⟨target_size.1, target_size.2⟩, some (x, y)⟩
  | ResizeMode.crop => ⟨⟨target_size.1, target_size.2⟩, none⟩

/-- The entry a file contributes to `failed_files` during one sequential
batch run: unsupported files contribute the unsupported-format entry,
failing supported files the exception text, successful files nothing. -/
def failEntry (E : TaskEnv) (output_dir : String) (p : String) : Option (String × String) :=
  if is_supported_format p then
    if E.succeeds p (out_path output_dir p) then none
    else some (p, E.errMsg p (out_path output_dir p))
  else some (p, "不支持的文件格式")

/-- The event emitted for the supported file at enumerate position `q.1`. -/
def eventOf (E : TaskEnv) (output_dir : String) (total : Nat) (q : Nat × String) :
    ProgressEvent :=
  ⟨((q.1 : ℚ) + 1) / (total : ℚ) * 100, basename q.2,
   E.succeeds q.2 (out_path output_dir q.2)⟩

lemma process_single_image_snd (E : TaskEnv) (st : ProcState) (i o : String) :
    (process_single_image E st i o).2 = E.succeeds i o := by
  by_cases h : E.succeeds i o <;> simp [process_single_image, h]

lemma seqLoop_count (E : TaskEnv) (out : String) (cb : Bool) (total : Nat) :
    ∀ (l : List String) (i : Nat) (st : ProcState),
      (seqLoop E out cb total l i st).state.processed_count
          + (seqLoop E out cb total l i st).state.failed_files.length
        = st.processed_count + st.failed_files.length + l.length := by
  intro l
  induction l with
  | nil => intro i st; simp [seqLoop]
  | cons a rest ih =>
    intro i st
    by_cases hs : is_supported_format a
    · by_cases hq : E.succeeds a (out_path out a)
      · simp only [seqLoop, hs, if_true, process_single_image, hq, ih]
        simp; omega
      · simp only [seqLoop, hs, if_true, process_single_image, hq, if_false, ih]
        simp; omega
    · simp only [seqLoop, hs, Bool.false_eq_true, if_false, ih]
      simp; omega

lemma seqLoop_failed (E : TaskEnv) (out : String) (cb : Bool) (total : Nat) :
    ∀ (l : List String) (i : Nat) (st : ProcState),
      (seqLoop E out cb total l i st).state.failed_files
        = st.failed_files ++ l.filterMap (failEntry E out) := by
  intro l
  induction l with
  | nil => intro i st; simp [seqLoop]
  | cons a rest ih =>
    intro i st
    by_cases hs : is_supported_format a
    · by_cases hq : E.succeeds a (out_path out a)
      · simp [seqLoop, hs, process_single_image, hq, ih, failEntry]
      · simp [seqLoop, hs, process_single_image, hq, ih, failEntry]
    · simp [seqLoop, hs, ih, failEntry]

lemma seqLoop_processed (E : TaskEnv) (out : String) (cb : Bool) (total : Nat) :
    ∀ (l : List String) (i : Nat) (st : ProcState),
      (seqLoop E out cb total l i st).state.processed_count
        = st.processed_count
          + ((l.filter fun p => is_supported_format p).filter
              (fun p => E.succeeds p (out_path out p))).length := by
  intro l
  induction l with
  | nil => intro i st; simp [seqLoop]
  | cons a rest ih =>
    intro i st
    by_cases hs : is_supported_format a
    · by_cases hq : E.succeeds a (out_path out a)
      · simp [seqLoop, hs, process_single_image, hq, ih]; omega
      · simp [seqLoop, hs, process_single_image, hq, ih]
    · simp [seqLoop, hs, ih]

lemma seqLoop_invoked (E : TaskEnv) (out : String) (cb : Bool) (total : Nat) :
    ∀ (l : List String) (i : Nat) (st : ProcState),
      (seqLoop E out cb total l i st).invoked
        = (l.filter fun p => is_supported_format p).map
            (fun p => (p, out_path out p)) := by
  intro l
  induction l with
  | nil => intro i st; simp [seqLoop]
  | cons a rest ih =>
    intro i st
    by_cases hs : is_supported_format a
    · simp [seqLoop, hs, ih]
    · simp [seqLoop, hs, ih]

lemma seqLoop_events (E : TaskEnv) (out : String) (total : Nat) :
    ∀ (l : List String) (i : Nat) (st : ProcState),
      (seqLoop E out true total l i st).events
        = ((List.enumFrom i l).filter (fun q => is_supported_format q.2)).map
            (eventOf E out total) := by
  intro l
  induction l with
  | nil => intro i st; simp [seqLoop, List.enumFrom]
  | cons a rest ih =>
    intro i st
    by_cases hs : is_supported_format a
    · simp [seqLoop, hs, ih, List.enumFrom, eventOf, process_single_image_snd]
    · simp [seqLoop, hs, ih, List.enumFrom]

lemma getLast?_filter {α : Type} (p : α → Bool) :
    ∀ (L : List α) (x : α), L.getLast? = some x → p x = true →
      (L.filter p).getLast? = some x := by
  intro L
  induction L with
  | nil => intro x hl; simp at hl
  | cons a rest ih =>
    intro x hl hp
    cases rest with
    | nil =>
      simp at hl
      subst hl
      simp [List.filter_cons_of_pos hp]
    | cons b t =>
      have hl2 : (b :: t).getLast? = some x := by simpa using hl
      have htail := ih x hl2 hp
      by_cases ha : p a
      · rw [List.filter_cons_of_pos ha,
          show a :: List.filter p (b :: t) = [a] ++ List.filter p (b :: t) from rfl,
          List.getLast?_append_of_ne_nil _ ?_, htail]
        intro hemp
        rw [hemp] at htail
        simp at htail
      · rw [List.filter_cons_of_neg ha, htail]

lemma enumFrom_getLast? {α : Type} :
    ∀ (L : List α) (i : Nat) (x : α), L.getLast? = some x →
      (List.enumFrom i L).getLast? = some (i + L.length - 1, x) := by
  intro L
  induction L with
  | nil => intro i x hl; simp at hl
  | cons a rest ih =>
    intro i x hl
    cases rest with
    | nil =>
      simp at hl
      subst hl
      simp [List.enumFrom]
    | cons b t =>
      have hl2 : (b :: t).getLast? = some x := by simpa using hl
      have htail := ih (i + 1) x hl2
      rw [show List.enumFrom i (a :: b :: t)
            = [(i, a)] ++ List.enumFrom (i + 1) (b :: t) from by simp [List.enumFrom],
        List.getLast?_append_of_ne_nil _ ?_, htail]
      · have harith : i + 1 + (b :: t).length - 1 = i + (a :: b :: t).length - 1 := by
          simp
          omega
        rw [harith]
      · intro hemp
        rw [hemp] at htail
        simp at htail

lemma enumFrom_pairwise_fst_lt {α : Type} (l : List α) :
    ∀ n : Nat, (List.enumFrom n l).Pairwise (fun a b => a.1 < b.1) := by
  induction l with
  | nil => intro n; simp [List.enumFrom]
  | cons a rest ih =>
    intro n
    refine List.Pairwise.cons ?_ (ih (n + 1))
    intro b hb
    obtain ⟨bi, bx⟩ := b
    have := (List.mem_enumFrom hb).1
    omega

/-- The entry a completed task contributes to `failed_files` in the
parallel loop. -/
def failOf (t : String × String × TaskOutcome) : Option (String × String) :=
  match t.2.2 with
  | TaskOutcome.ok => none
  | TaskOutcome.err m => some (t.1, m)
  | TaskOutcome.exn m => some (t.1, "处理异常: " ++ m)

lemma multiLoop_count (cb : Bool) (tv : Nat) :
    ∀ (l : List (String × String × TaskOutcome)) (c : Nat) (st : ProcState),
      (multiLoop cb tv l c st).1.processed_count
          + (multiLoop cb tv l c st).1.failed_files.length
        = st.processed_count + st.failed_files.length + l.length := by
  intro l
  induction l with
  | nil => intro c st; simp [multiLoop]
  | cons t rest ih =>
    intro c st
    obtain ⟨ip, op, oc⟩ := t
    cases oc <;> (simp [multiLoop, ih]; omega)

lemma multiLoop_failed (cb : Bool) (tv : Nat) :
    ∀ (l : List (String × String × TaskOutcome)) (c : Nat) (st : ProcState),
      (multiLoop cb tv l c st).1.failed_files
        = st.failed_files ++ l.filterMap failOf := by
  intro l
  induction l with
  | nil => intro c st; simp [multiLoop]
  | cons t rest ih =>
    intro c st
    obtain ⟨ip, op, oc⟩ := t
    cases oc <;> simp [multiLoop, ih, failOf]

lemma multiLoop_processed (cb : Bool) (tv : Nat) :
    ∀ (l : List (String × String × TaskOutcome)) (c : Nat) (st : ProcState),
      (multiLoop cb tv l c st).1.processed_count
        = st.processed_count
          + (l.filter (fun t => t.2.2 = TaskOutcome.ok)).length := by
  intro l
  induction l with
  | nil => intro c st; simp [multiLoop]
  | cons t rest ih =>
    intro c st
    obtain ⟨ip, op, oc⟩ := t
    cases oc <;> simp [multiLoop, ih] <;> omega

lemma multiLoop_event_names (tv : Nat) :
    ∀ (l : List (String × String × TaskOutcome)) (c : Nat) (st : ProcState),
      ((multiLoop true tv l c st).2).map (fun e => e.filename)
        = l.map (fun t => basename t.1) := by
  intro l
  induction l with
  | nil => intro c st; simp [multiLoop]
  | cons t rest ih =>
    intro c st
    obtain ⟨ip, op, oc⟩ := t
    cases oc <;> simp [multiLoop, ih]

lemma filterMap_failOf_fst :
    ∀ (l : List (String × String × TaskOutcome)),
      (l.filterMap failOf).map Prod.fst
        = (l.filter (fun t => !(decide (t.2.2 = TaskOutcome.ok)))).map (fun t => t.1) := by
  intro l
  induction l with
  | nil => simp
  | cons t rest ih =>
    obtain ⟨ip, op, oc⟩ := t
    cases oc <;> simp [failOf, ih]

lemma filterMap_failEntry_all_unsup (E : TaskEnv) (out : String) :
    ∀ (l : List String), (∀ p ∈ l, is_supported_format p = false) →
      l.filterMap (failEntry E out) = l.map (fun p => (p, "不支持的文件格式")) := by
  intro l
  induction l with
  | nil => intro _; simp
  | cons a rest ih =>
    intro hall
    have ha := hall a (List.mem_cons_self a rest)
    simp [failEntry, ha, ih fun p hp => hall p (List.mem_cons_of_mem a hp)]

lemma roundAspect_le (q : ℚ) (key : Int → ℚ) (b : Nat) (hb : 1 ≤ b)
    (hq : q ≤ (b : ℚ)) : roundAspect q key ≤ (b : Int) := by
  unfold roundAspect
  have hc : ⌈q⌉ ≤ (b : Int) := Int.ceil_le.mpr (by exact_mod_cast hq)
  have hf : ⌊q⌋ ≤ (b : Int) := le_trans (Int.floor_le_ceil q) hc
  refine max_le ?_ (by exact_mod_cast hb)
  split_ifs <;> assumption

lemma thumbnailDims_fits (image : ImgSize) (W H : Nat)
    (hw : 0 < image.width) (hh : 0 < image.height) (hW : 0 < W) (hH : 0 < H) :
    (thumbnailDims image W H).width ≤ W ∧ (thumbnailDims image W H).height ≤ H := by
  obtain ⟨w, h⟩ := image
  simp only at hw hh
  have hh0 : (0 : ℚ) < (h : ℚ) := by exact_mod_cast hh
  have hw0 : (0 : ℚ) < (w : ℚ) := by exact_mod_cast hw
  have hH0 : (0 : ℚ) < (H : ℚ) := by exact_mod_cast hH
  unfold thumbnailDims
  by_cases h1 : W ≥ w ∧ H ≥ h
  · simp only [h1, if_true]
    exact ⟨h1.1, h1.2⟩
  · simp only [h1, if_false]
    by_cases h2 : (W : ℚ) / (H : ℚ) ≥ (w : ℚ) / (h : ℚ)
    · simp only [h2, if_true]
      refine ⟨?_, le_refl H⟩
      have hq : (H : ℚ) * ((w : ℚ) / (h : ℚ)) ≤ (W : ℚ) := by
        rw [ge_iff_le, div_le_div_iff₀ hh0 hH0] at h2
        rw [mul_div_assoc', div_le_iff₀ hh0]
        nlinarith [h2]
      exact Int.toNat_le.mpr (roundAspect_le _ _ W hW hq)
    · simp only [h2, if_false]
      refine ⟨le_refl W, ?_⟩
      have haspect : (0 : ℚ) < (w : ℚ) / (h : ℚ) := div_pos hw0 hh0
      have hq : (W : ℚ) / ((w : ℚ) / (h : ℚ)) ≤ (H : ℚ) := by
        push_neg at h2
        rw [div_lt_iff₀ hH0] at h2
        rw [div_le_iff₀ haspect]
        nlinarith [h2]
      exact Int.toNat_le.mpr (roundAspect_le _ _ H hH hq)

/-- Concrete task environment in which every processing attempt succeeds. -/
def okEnv : TaskEnv := ⟨fun _ _ => true, fun _ _ => "error"⟩

/-- Concrete pool environment in which every worker task succeeds. -/
def okPool : PoolEnv := ⟨fun _ _ => TaskOutcome.ok⟩

/-- Claim C1: for every input file list, output directory, target size,
mode and quality (the ambient parameters of the oracles), the BatchResult
returned by `batch_process` satisfies `total = processed + failed`, in
both the sequential runner and the parallel runner; `total` is the length
of the input list. -/
theorem batch_total_eq_processed_add_failed (F : TaskEnv) (E : PoolEnv)
    (init init2 : ProcState) (mw : Nat) (pf : Bool) (co : List (String × String))
    (elapsed : ℚ) (fl : List String) (out : String) (cb cb2 : Bool)
    (hco : co.Perm (tasks_of out fl)) :
    ((seq_batch_process F init fl out cb).result.total = fl.length
      ∧ (seq_batch_process F init fl out cb).result.total
          = (seq_batch_process F init fl out cb).result.processed
            + (seq_batch_process F init fl out cb).result.failed)
    ∧ ((multi_batch_process E F init2 mw pf co elapsed fl out cb2).result.total = fl.length
      ∧ (multi_batch_process E F init2 mw pf co elapsed fl out cb2).result.total
          = (multi_batch_process E F init2 mw pf co elapsed fl out cb2).result.processed
            + (multi_batch_process E F init2 mw pf co elapsed fl out cb2).result.failed) := by
  have hpart : (valid_files fl).length
      + (fl.filter (fun p => !(is_supported_format p))).length = fl.length := by
    have h := (List.filter_append_perm (fun p => is_supported_format p) fl).length_eq
    simpa [valid_files] using h
  constructor
  · have hseq := seqLoop_count F out cb fl.length fl 0 ⟨0, []⟩
    constructor
    · simp [seq_batch_process]
    · simp only [seq_batch_process]
      simp at hseq ⊢
      omega
  · by_cases hvalid : (valid_files fl).length = 0
    · constructor
      · simp [multi_batch_process, hvalid]
      · simp [multi_batch_process, hvalid, unsupported_failures]
        omega
    · cases pf with
      | true =>
        have hseq := seqLoop_count F out cb2 fl.length fl 0 ⟨0, []⟩
        constructor
        · simp [multi_batch_process, hvalid, seq_batch_process]
        · simp only [multi_batch_process, hvalid, if_neg, if_true, seq_batch_process]
          simp at hseq ⊢
          omega
      | false =>
        have hco_len : co.length = (valid_files fl).length := by
          have := hco.length_eq
          simpa [tasks_of] using this
        have hml := multiLoop_count cb2 (valid_files fl).length
          (co.map (fun t => (t.1, t.2, E.outcome t.1 t.2))) 0
          ⟨0, unsupported_failures fl⟩
        constructor
        · simp [multi_batch_process, hvalid]
        · simp only [multi_batch_process, hvalid, if_neg, if_true]
          simp [unsupported_failures] at hml ⊢
          omega

/-- Witness for C1 at a concrete input with one supported and one
unsupported file. -/
theorem batch_total_eq_processed_add_failed_witness :
    ((seq_batch_process okEnv ⟨0, []⟩ ["a.jpg", "b.txt"] "o" true).result.total
        = (["a.jpg", "b.txt"] : List String).length
      ∧ (seq_batch_process okEnv ⟨0, []⟩ ["a.jpg", "b.txt"] "o" true).result.total
          = (seq_batch_process okEnv ⟨0, []⟩ ["a.jpg", "b.txt"] "o" true).result.processed
            + (seq_batch_process okEnv ⟨0, []⟩ ["a.jpg", "b.txt"] "o" true).result.failed)
    ∧ ((multi_batch_process okPool okEnv ⟨0, []⟩ 4 false [("a.jpg", "o/a_resized.jpg")] 7
          ["a.jpg", "b.txt"] "o" true).result.total = (["a.jpg", "b.txt"] : List String).length
      ∧ (multi_batch_process okPool okEnv ⟨0, []⟩ 4 false [("a.jpg", "o/a_resized.jpg")] 7
          ["a.jpg", "b.txt"] "o" true).result.total
          = (multi_batch_process okPool okEnv ⟨0, []⟩ 4 false [("a.jpg", "o/a_resized.jpg")] 7
              ["a.jpg", "b.txt"] "o" true).result.processed
            + (multi_batch_process okPool okEnv ⟨0, []⟩ 4 false [("a.jpg", "o/a_resized.jpg")] 7
                ["a.jpg", "b.txt"] "o" true).result.failed) :=
  batch_total_eq_processed_add_failed okEnv okPool ⟨0, []⟩ ⟨0, []⟩ 4 false
    [("a.jpg", "o/a_resized.jpg")] 7 ["a.jpg", "b.txt"] "o" true true (by decide)

/-- Claim C2 (amended): in the sequential runner with a callback supplied,
the emitted events are exactly one event per file with a supported
extension, in input-list order, carrying percentage `(i+1)/total*100` (at
the file's enumerate index `i` over the full list), the file's basename
and the success boolean; files with unsupported extensions emit no event
(the `continue` precedes the callback). -/
theorem seq_progress_events_exactly_supported (E : TaskEnv) (init : ProcState)
    (fl : List String) (out : String) :
    (seq_batch_process E init fl out true).events
      = ((List.enumFrom 0 fl).filter (fun q => is_supported_format q.2)).map
          (eventOf E out fl.length) := by
  simp only [seq_batch_process]
  exact seqLoop_events E out fl.length fl 0 ⟨0, []⟩

/-- Counterexample to C2 as stated: a one-file list whose only file has an
unsupported extension produces zero progress events, not one. -/
theorem seq_no_event_for_unsupported_file :
    (["b.txt"] : List String).length = 1
    ∧ (seq_batch_process okEnv ⟨0, []⟩ ["b.txt"] "o" true).events = [] := by
  constructor
  · rfl
  · decide

/-- Claim C9: the BatchResult of either runner is independent of the
instance counters left over from earlier calls; both are reset at the
start of each `batch_process` invocation. -/
theorem batch_result_independent_of_prior_state (F : TaskEnv) (E : PoolEnv)
    (s1 s2 t1 t2 : ProcState) (mw : Nat) (pf : Bool) (co : List (String × String))
    (elapsed : ℚ) (fl : List String) (out : String) (cb cb2 : Bool) :
    (seq_batch_process F s1 fl out cb).result = (seq_batch_process F s2 fl out cb).result
    ∧ (multi_batch_process E F t1 mw pf co elapsed fl out cb2).result
        = (multi_batch_process E F t2 mw pf co elapsed fl out cb2).result :=
  ⟨rfl, rfl⟩

/-- Claim C10: on the empty input list both runners return
`total = processed = failed = 0` without emitting any progress event (so
the division in the progress formula is never evaluated), and the parallel
runner returns before constructing any worker pool. -/
theorem empty_file_list_safe (F : TaskEnv) (E : PoolEnv) (init init2 : ProcState)
    (mw : Nat) (pf : Bool) (co : List (String × String)) (elapsed : ℚ)
    (out : String) (cb cb2 : Bool) :
    (seq_batch_process F init [] out cb).result = ⟨0, 0, 0, [], none, none⟩
    ∧ (seq_batch_process F init [] out cb).events = []
    ∧ (multi_batch_process E F init2 mw pf co elapsed [] out cb2).result
        = ⟨0, 0, 0, [], none, none⟩
    ∧ (multi_batch_process E F init2 mw pf co elapsed [] out cb2).events = []
    ∧ (multi_batch_process E F init2 mw pf co elapsed [] out cb2).pool_attempted = false :=
  ⟨rfl, rfl, rfl, rfl, rfl⟩

/-- Claim C3 (amended): in the parallel runner with a callback supplied
and a working pool, every file with a supported extension yields exactly
one terminal progress event (the multiset of event filenames equals the
multiset of valid-file basenames, with no order guarantee), and every
input file — supported or not — contributes exactly once to the final
BatchResult: the failure paths together with the inputs of the successful
completions are a permutation of the input list, and `processed` counts
the successful completions.  Files with unsupported extensions are
filtered out before task submission and yield no progress event. -/
theorem multi_one_event_per_valid_file (E : PoolEnv) (F : TaskEnv) (init : ProcState)
    (mw : Nat) (co : List (String × String)) (elapsed : ℚ) (fl : List String)
    (out : String) (hco : co.Perm (tasks_of out fl)) :
    ((multi_batch_process E F init mw false co elapsed fl out true).events.map
        (fun e => e.filename)).Perm ((valid_files fl).map basename)
    ∧ ((multi_batch_process E F init mw false co elapsed fl out true).result.failed_files.map
          Prod.fst
        ++ (co.filter (fun t => E.outcome t.1 t.2 = TaskOutcome.ok)).map
            (fun t => t.1)).Perm fl
    ∧ (multi_batch_process E F init mw false co elapsed fl out true).result.processed
        = ((co.filter (fun t => E.outcome t.1 t.2 = TaskOutcome.ok)).map
            (fun t => t.1)).length := by
  have hfl : (valid_files fl ++ fl.filter (fun p => !(is_supported_format p))).Perm fl :=
    List.filter_append_perm (fun p => is_supported_format p) fl
  by_cases hvalid : (valid_files fl).length = 0
  · have hnil : valid_files fl = [] := List.length_eq_zero.mp hvalid
    have hco0 : co = [] := by
      have ht : tasks_of out fl = [] := by simp [tasks_of, hnil]
      rw [ht] at hco
      exact hco.eq_nil
    subst hco0
    have hall : fl.filter (fun p => !(is_supported_format p)) = fl := by
      rw [List.filter_eq_self]
      intro a ha
      have := List.filter_eq_nil_iff.mp hnil a ha
      simpa using this
    refine ⟨by simp [multi_batch_process, hvalid, hnil], ?_, ?_⟩
    · simp only [multi_batch_process, hvalid, if_true]
      simp [unsupported_failures, hall, Function.comp_def]
    · simp [multi_batch_process, hvalid]
  · have hcofst : (co.map Prod.fst).Perm (valid_files fl) := by
      have h1 := hco.map Prod.fst
      simpa [tasks_of, List.map_map, Function.comp_def] using h1
    refine ⟨?_, ?_, ?_⟩
    · simp only [multi_batch_process, hvalid, if_neg, if_true, Bool.false_eq_true,
        if_false]
      rw [multiLoop_event_names]
      have : (co.map (fun t => (t.1, t.2, E.outcome t.1 t.2))).map
          (fun t => basename t.1) = (co.map Prod.fst).map basename := by
        simp [List.map_map, Function.comp]
      rw [this]
      exact hcofst.map basename
    · simp only [multi_batch_process, hvalid, if_neg, if_true, Bool.false_eq_true,
        if_false]
      rw [multiLoop_failed]
      have hsplit :
          ((⟨0, unsupported_failures fl⟩ : ProcState).failed_files
              ++ ((co.map (fun t => (t.1, t.2, E.outcome t.1 t.2))).filterMap failOf)).map
            Prod.fst
          = (fl.filter (fun p => !(is_supported_format p)))
            ++ (co.filter
                (fun t => !(decide (E.outcome t.1 t.2 = TaskOutcome.ok)))).map
              (fun t => t.1) := by
        rw [List.map_append, filterMap_failOf_fst]
        congr 1
        · simp [unsupported_failures, List.map_map, Function.comp_def]
        · rw [List.filter_map]
          simp [List.map_map, Function.comp_def]
      rw [hsplit, List.append_assoc]
      have hok : ((co.filter
            (fun t => !(decide (E.outcome t.1 t.2 = TaskOutcome.ok)))).map (fun t => t.1)
          ++ (co.filter (fun t => E.outcome t.1 t.2 = TaskOutcome.ok)).map
              (fun t => t.1)).Perm (valid_files fl) := by
        have h2 : ((co.filter (fun t => E.outcome t.1 t.2 = TaskOutcome.ok))
            ++ (co.filter
                (fun t => !(decide (E.outcome t.1 t.2 = TaskOutcome.ok))))).Perm co :=
          List.filter_append_perm _ co
        have h3 := (List.perm_append_comm.trans h2).map (fun t : String × String => t.1)
        rw [List.map_append] at h3
        exact h3.trans hcofst
      exact ((List.Perm.append_left _ hok).trans List.perm_append_comm).trans hfl
    · simp only [multi_batch_process, hvalid, if_neg, if_true, Bool.false_eq_true,
        if_false]
      rw [multiLoop_processed]
      rw [List.filter_map]
      simp [List.map_map, Function.comp_def]

/-- Witness for C3 at a concrete two-file input. -/
theorem multi_one_event_per_valid_file_witness :
    ((multi_batch_process okPool okEnv ⟨0, []⟩ 4 false [("a.jpg", "o/a_resized.jpg")] 7
        ["a.jpg", "b.txt"] "o" true).events.map
        (fun e => e.filename)).Perm ((valid_files ["a.jpg", "b.txt"]).map basename)
    ∧ ((multi_batch_process okPool okEnv ⟨0, []⟩ 4 false [("a.jpg", "o/a_resized.jpg")] 7
          ["a.jpg", "b.txt"] "o" true).result.failed_files.map Prod.fst
        ++ (([("a.jpg", "o/a_resized.jpg")] : List (String × String)).filter
            (fun t => okPool.outcome t.1 t.2 = TaskOutcome.ok)).map
            (fun t => t.1)).Perm ["a.jpg", "b.txt"]
    ∧ (multi_batch_process okPool okEnv ⟨0, []⟩ 4 false [("a.jpg", "o/a_resized.jpg")] 7
          ["a.jpg", "b.txt"] "o" true).result.processed
        = ((([("a.jpg", "o/a_resized.jpg")] : List (String × String)).filter
            (fun t => okPool.outcome t.1 t.2 = TaskOutcome.ok)).map
            (fun t => t.1)).length :=
  multi_one_event_per_valid_file okPool okEnv ⟨0, []⟩ 4
    [("a.jpg", "o/a_resized.jpg")] 7 ["a.jpg", "b.txt"] "o" (by decide)

/-- Counterexample to C3 as stated: a one-file list whose only file has an
unsupported extension contributes to the BatchResult but yields zero
terminal progress events, not one. -/
theorem multi_no_event_for_unsupported_file :
    (["b.txt"] : List String).length = 1
    ∧ (multi_batch_process okPool okEnv ⟨0, []⟩ 4 false [] 7 ["b.txt"] "o" true).events
        = [] := by
  constructor
  · rfl
  · decide

/-- Claim C4: when constructing/running the process pool raises, the
parallel runner returns a BatchResult whose `total`, `processed`, `failed`
and failed-file list equal those produced by the sequential runner alone
on the same full input list and parameters — the whole batch is redone
sequentially from the beginning by a fresh `ImageProcessor`. -/
theorem pool_failure_falls_back_to_sequential (E : PoolEnv) (F : TaskEnv)
    (init initS : ProcState) (mw : Nat) (co : List (String × String)) (elapsed : ℚ)
    (fl : List String) (out : String) (cb : Bool) :
    (multi_batch_process E F init mw true co elapsed fl out cb).result.total
        = (seq_batch_process F initS fl out cb).result.total
    ∧ (multi_batch_process E F init mw true co elapsed fl out cb).result.processed
        = (seq_batch_process F initS fl out cb).result.processed
    ∧ (multi_batch_process E F init mw true co elapsed fl out cb).result.failed
        = (seq_batch_process F initS fl out cb).result.failed
    ∧ (multi_batch_process E F init mw true co elapsed fl out cb).result.failed_files
        = (seq_batch_process F initS fl out cb).result.failed_files := by
  by_cases hvalid : (valid_files fl).length = 0
  · have hnil : valid_files fl = [] := List.length_eq_zero.mp hvalid
    have hall : ∀ p ∈ fl, is_supported_format p = false := by
      intro p hp
      have := List.filter_eq_nil_iff.mp hnil p hp
      simpa using this
    have hfilter : fl.filter (fun p => !(is_supported_format p)) = fl := by
      rw [List.filter_eq_self]
      intro a ha
      simp [hall a ha]
    have hfailed : (seqLoop F out cb fl.length fl 0 ⟨0, []⟩).state.failed_files
        = fl.map (fun p => (p, "不支持的文件格式")) := by
      rw [seqLoop_failed]
      simp [filterMap_failEntry_all_unsup F out fl hall]
    have hproc : (seqLoop F out cb fl.length fl 0 ⟨0, []⟩).state.processed_count = 0 := by
      rw [seqLoop_processed]
      have : fl.filter (fun p => is_supported_format p) = [] := hnil
      rw [this]
      simp
    refine ⟨?_, ?_, ?_, ?_⟩ <;>
      simp [multi_batch_process, hvalid, seq_batch_process, hfailed, hproc,
        unsupported_failures, hfilter]
  · refine ⟨?_, ?_, ?_, ?_⟩ <;> (simp [multi_batch_process, hvalid]; rfl)

/-- Claim C5: for every input image and every positive target (W,H),
`resize_image` returns an image of exactly W×H pixels in each of the three
modes (and the worker's inlined copy of the logic does the same); in
KEEP_RATIO mode the scaled image is pasted on the white W×H canvas at
offsets `((W - scaled_w) // 2, (H - scaled_h) // 2)` computed with floor
division, the scaled dimensions fitting inside the target box. -/
theorem resize_returns_exact_target (w h W H : Nat)
    (hw : 0 < w) (hh : 0 < h) (hW : 0 < W) (hH : 0 < H) :
    (resize_image ⟨w, h⟩ (W, H) ResizeMode.stretch).img = ⟨W, H⟩
    ∧ (resize_image ⟨w, h⟩ (W, H) ResizeMode.keepAspect).img = ⟨W, H⟩
    ∧ (resize_image ⟨w, h⟩ (W, H) ResizeMode.crop).img = ⟨W, H⟩
    ∧ (worker_resize ⟨w, h⟩ (W, H) ResizeMode.stretch).img = ⟨W, H⟩
    ∧ (worker_resize ⟨w, h⟩ (W, H) ResizeMode.keepAspect).img = ⟨W, H⟩
    ∧ (worker_resize ⟨w, h⟩ (W, H) ResizeMode.crop).img = ⟨W, H⟩
    ∧ (resize_image ⟨w, h⟩ (W, H) ResizeMode.keepAspect).pasteOffset
        = some (((W : Int) - ((thumbnailDims ⟨w, h⟩ W H).width : Int)).fdiv 2,
                ((H : Int) - ((thumbnailDims ⟨w, h⟩ W H).height : Int)).fdiv 2)
    ∧ worker_resize ⟨w, h⟩ (W, H) ResizeMode.keepAspect
        = resize_image ⟨w, h⟩ (W, H) ResizeMode.keepAspect
    ∧ (thumbnailDims ⟨w, h⟩ W H).width ≤ W
    ∧ (thumbnailDims ⟨w, h⟩ W H).height ≤ H :=
  ⟨rfl, rfl, rfl, rfl, rfl, rfl, rfl, rfl,
   (thumbnailDims_fits ⟨w, h⟩ W H hw hh hW hH).1,
   (thumbnailDims_fits ⟨w, h⟩ W H hw hh hW hH).2⟩

/-- Witness for C5 at a 1×1 source image and 3×2 target. -/
theorem resize_returns_exact_target_witness :
    (resize_image ⟨1, 1⟩ (3, 2) ResizeMode.stretch).img = ⟨3, 2⟩
    ∧ (resize_image ⟨1, 1⟩ (3, 2) ResizeMode.keepAspect).img = ⟨3, 2⟩
    ∧ (resize_image ⟨1, 1⟩ (3, 2) ResizeMode.crop).img = ⟨3, 2⟩
    ∧ (worker_resize ⟨1, 1⟩ (3, 2) ResizeMode.stretch).img = ⟨3, 2⟩
    ∧ (worker_resize ⟨1, 1⟩ (3, 2) ResizeMode.keepAspect).img = ⟨3, 2⟩
    ∧ (worker_resize ⟨1, 1⟩ (3, 2) ResizeMode.crop).img = ⟨3, 2⟩
    ∧ (resize_image ⟨1, 1⟩ (3, 2) ResizeMode.keepAspect).pasteOffset
        = some (((3 : Int) - ((thumbnailDims ⟨1, 1⟩ 3 2).width : Int)).fdiv 2,
                ((2 : Int) - ((thumbnailDims ⟨1, 1⟩ 3 2).height : Int)).fdiv 2)
    ∧ worker_resize ⟨1, 1⟩ (3, 2) ResizeMode.keepAspect
        = resize_image ⟨1, 1⟩ (3, 2) ResizeMode.keepAspect
    ∧ (thumbnailDims ⟨1, 1⟩ 3 2).width ≤ 3
    ∧ (thumbnailDims ⟨1, 1⟩ 3 2).height ≤ 2 :=
  resize_returns_exact_target 1 1 3 2 (by decide) (by decide) (by decide) (by decide)

/-- Claim C6: a file whose extension is not in the supported set is
recorded as a failure with the unsupported-format reason by both runners,
is never passed to the single-image task (it appears neither among the
sequential runner's invocations nor among the parallel runner's submitted
tasks), and the batch continues with the other files. -/
theorem unsupported_marked_failed_never_invoked (F : TaskEnv) (E : PoolEnv)
    (init init2 : ProcState) (mw : Nat) (pf : Bool) (co : List (String × String))
    (elapsed : ℚ) (fl : List String) (out : String) (cb cb2 : Bool) (p : String)
    (hp : p ∈ fl) (hup : is_supported_format p = false) :
    (p, "不支持的文件格式") ∈ (seq_batch_process F init fl out cb).result.failed_files
    ∧ p ∉ ((seq_batch_process F init fl out cb).invoked.map Prod.fst)
    ∧ (p, "不支持的文件格式")
        ∈ (multi_batch_process E F init2 mw pf co elapsed fl out cb2).result.failed_files
    ∧ p ∉ ((multi_batch_process E F init2 mw pf co elapsed fl out cb2).tasks.map
        Prod.fst) := by
  have hseqfail : ∀ (cbx : Bool) (initx : ProcState),
      (p, "不支持的文件格式")
        ∈ (seq_batch_process F initx fl out cbx).result.failed_files := by
    intro cbx initx
    simp only [seq_batch_process]
    rw [seqLoop_failed]
    refine List.mem_append_right _ ?_
    exact List.mem_filterMap.mpr ⟨p, hp, by simp [failEntry, hup]⟩
  have hunsup_mem : (p, "不支持的文件格式") ∈ unsupported_failures fl := by
    simp only [unsupported_failures]
    exact List.mem_map.mpr ⟨p, List.mem_filter.mpr ⟨hp, by simp [hup]⟩, rfl⟩
  have htasks : p ∉ ((tasks_of out fl).map Prod.fst) := by
    intro hmem
    simp only [tasks_of, List.map_map, Function.comp_def] at hmem
    have := List.mem_filter.mp (by simpa [valid_files] using hmem)
    rw [hup] at this
    exact absurd this.2 (by simp)
  refine ⟨hseqfail cb init, ?_, ?_, ?_⟩
  · intro hmem
    simp only [seq_batch_process] at hmem
    rw [seqLoop_invoked] at hmem
    simp only [List.map_map, Function.comp_def] at hmem
    have := List.mem_filter.mp (by simpa using hmem)
    rw [hup] at this
    exact absurd this.2 (by simp)
  · by_cases hvalid : (valid_files fl).length = 0
    · simp only [multi_batch_process, hvalid, if_true]
      exact hunsup_mem
    · cases pf with
      | true =>
        simp only [multi_batch_process, hvalid, if_neg, if_true, Bool.false_eq_true,
          if_false]
        exact hseqfail cb2 ⟨0, []⟩
      | false =>
        simp only [multi_batch_process, hvalid, if_neg, if_true, Bool.false_eq_true,
          if_false]
        rw [multiLoop_failed]
        exact List.mem_append_left _ hunsup_mem
  · by_cases hvalid : (valid_files fl).length = 0
    · simp [multi_batch_process, hvalid]
    · cases pf with
      | true =>
        simp only [multi_batch_process, hvalid, if_neg, if_true, Bool.false_eq_true,
          if_false]
        exact htasks
      | false =>
        simp only [multi_batch_process, hvalid, if_neg, if_true, Bool.false_eq_true,
          if_false]
        exact htasks

/-- Witness for C6: the unsupported file of a concrete two-file batch. -/
theorem unsupported_marked_failed_never_invoked_witness :
    ("b.txt", "不支持的文件格式")
        ∈ (seq_batch_process okEnv ⟨0, []⟩ ["a.jpg", "b.txt"] "o" true).result.failed_files
    ∧ "b.txt" ∉ ((seq_batch_process okEnv ⟨0, []⟩ ["a.jpg", "b.txt"] "o" true).invoked.map
        Prod.fst)
    ∧ ("b.txt", "不支持的文件格式")
        ∈ (multi_batch_process okPool okEnv ⟨0, []⟩ 4 false [("a.jpg", "o/a_resized.jpg")]
            7 ["a.jpg", "b.txt"] "o" true).result.failed_files
    ∧ "b.txt" ∉ ((multi_batch_process okPool okEnv ⟨0, []⟩ 4 false
        [("a.jpg", "o/a_resized.jpg")] 7 ["a.jpg", "b.txt"] "o" true).tasks.map
        Prod.fst) :=
  unsupported_marked_failed_never_invoked okEnv okPool ⟨0, []⟩ ⟨0, []⟩ 4 false
    [("a.jpg", "o/a_resized.jpg")] 7 ["a.jpg", "b.txt"] "o" true true "b.txt"
    (by decide) (by decide)

/-- Claim C7 (amended): in the sequential runner with a non-empty input
list and a callback supplied, the emitted progress percentages are
non-decreasing; and when the last file of the list has a supported
extension the final percentage equals 100.  (When the last file is
unsupported it emits no event, so the final emitted percentage can be
below 100.) -/
theorem seq_progress_monotone_final_supported (E : TaskEnv) (init : ProcState)
    (fl : List String) (out : String) (hne : fl ≠ []) :
    List.Chain' (fun a b => a ≤ b)
      ((seq_batch_process E init fl out true).events.map (fun e => e.percentage))
    ∧ (is_supported_format (fl.getLast hne) = true →
        ((seq_batch_process E init fl out true).events.map
            (fun e => e.percentage)).getLast? = some 100) := by
  have hn : 0 < fl.length := List.length_pos.mpr hne
  have hq : (0 : ℚ) < (fl.length : ℚ) := by exact_mod_cast hn
  have hev : (seq_batch_process E init fl out true).events
      = ((List.enumFrom 0 fl).filter (fun q => is_supported_format q.2)).map
          (eventOf E out fl.length) := by
    simp only [seq_batch_process]
    exact seqLoop_events E out fl.length fl 0 ⟨0, []⟩
  constructor
  · rw [hev, List.map_map]
    apply List.Pairwise.chain'
    rw [List.pairwise_map]
    have hpw := (enumFrom_pairwise_fst_lt fl 0).filter
      (fun q => is_supported_format q.2)
    refine hpw.imp ?_
    intro a b hab
    simp only [Function.comp_def, eventOf]
    have h1 : ((a.1 : ℚ) + 1) ≤ ((b.1 : ℚ) + 1) := by
      have hle : (a.1 : ℚ) ≤ (b.1 : ℚ) := by exact_mod_cast hab.le
      linarith
    have h100n : (0 : ℚ) ≤ 100 / (fl.length : ℚ) := by positivity
    calc ((a.1 : ℚ) + 1) / (fl.length : ℚ) * 100
        = ((a.1 : ℚ) + 1) * (100 / (fl.length : ℚ)) := by ring
      _ ≤ ((b.1 : ℚ) + 1) * (100 / (fl.length : ℚ)) :=
          mul_le_mul_of_nonneg_right h1 h100n
      _ = ((b.1 : ℚ) + 1) / (fl.length : ℚ) * 100 := by ring
  · intro hsup
    have hlast : fl.getLast? = some (fl.getLast hne) := List.getLast?_eq_getLast fl hne
    have h1 := enumFrom_getLast? fl 0 (fl.getLast hne) hlast
    have h2 := getLast?_filter (fun q => is_supported_format q.2) (List.enumFrom 0 fl)
      (0 + fl.length - 1, fl.getLast hne) h1 (by simpa using hsup)
    rw [hev, List.map_map, List.getLast?_map, h2]
    simp only [Option.map_some', Function.comp_def, eventOf]
    have hcast : (((0 + fl.length - 1 : ℕ) : ℚ)) + 1 = (fl.length : ℚ) := by
      rw [Nat.zero_add]
      rw [Nat.cast_sub hn]
      push_cast
      ring
    rw [hcast, div_self (ne_of_gt hq)]
    norm_num

/-- Witness for C7 at a concrete one-file supported input. -/
theorem seq_progress_monotone_final_supported_witness :
    List.Chain' (fun a b => a ≤ b)
      ((seq_batch_process okEnv ⟨0, []⟩ ["a.jpg"] "o" true).events.map
        (fun e => e.percentage))
    ∧ (is_supported_format ((["a.jpg"] : List String).getLast
          (List.cons_ne_nil "a.jpg" [])) = true →
        ((seq_batch_process okEnv ⟨0, []⟩ ["a.jpg"] "o" true).events.map
            (fun e => e.percentage)).getLast? = some 100) :=
  seq_progress_monotone_final_supported okEnv ⟨0, []⟩ ["a.jpg"] "o"
    (List.cons_ne_nil "a.jpg" [])

/-- Counterexample to C7 as stated: when the last file has an unsupported
extension, the final emitted percentage is 50, not 100, even though the
input list is non-empty and a callback is supplied. -/
theorem seq_final_progress_below_100_when_last_unsupported :
    ((seq_batch_process okEnv ⟨0, []⟩ ["a.jpg", "b.txt"] "o" true).events.map
        (fun e => e.percentage)).getLast? = some 50
    ∧ (50 : ℚ) ≠ 100 := by
  constructor
  · have hev := seqLoop_events okEnv "o" (["a.jpg", "b.txt"] : List String).length
      ["a.jpg", "b.txt"] 0 ⟨0, []⟩
    simp only [seq_batch_process]
    rw [hev]
    rw [show ((List.enumFrom 0 ["a.jpg", "b.txt"]).filter
        (fun q => is_supported_format q.2)) = [(0, "a.jpg")] from by decide]
    simp [eventOf]
    norm_num
  · norm_num

/-- Claim C8 (amended): whenever at least one input file has a supported
extension and the pool does not fail, the BatchResult of the parallel
runner carries the elapsed wall-clock processing time and the worker count
used, in addition to the aggregate counts.  (The early return taken when
no input survives the format filter, and the sequential fallback, omit
both keys — see the accompanying counterexample.) -/
theorem multi_result_carries_time_and_workers (E : PoolEnv) (F : TaskEnv)
    (init : ProcState) (mw : Nat) (co : List (String × String)) (elapsed : ℚ)
    (fl : List String) (out : String) (cb : Bool)
    (hvalid : valid_files fl ≠ []) :
    (multi_batch_process E F init mw false co elapsed fl out cb).result.processing_time
        = some elapsed
    ∧ (multi_batch_process E F init mw false co elapsed fl out cb).result.workers_used
        = some mw := by
  have h0 : ¬ ((valid_files fl).length = 0) := by
    simpa [List.length_eq_zero] using hvalid
  constructor <;> simp [multi_batch_process, h0]

/-- Witness for C8 at a concrete input with one supported file. -/
theorem multi_result_carries_time_and_workers_witness :
    (multi_batch_process okPool okEnv ⟨0, []⟩ 4 false [] 7 ["a.jpg"] "o"
        true).result.processing_time = some 7
    ∧ (multi_batch_process okPool okEnv ⟨0, []⟩ 4 false [] 7 ["a.jpg"] "o"
        true).result.workers_used = some 4 :=
  multi_result_carries_time_and_workers okPool okEnv ⟨0, []⟩ 4 [] 7 ["a.jpg"] "o" true
    (by decide)

/-- Counterexample to C8 as stated: for an input list whose only file has
an unsupported extension, the returned dictionary has neither a
`processing_time` nor a `workers_used` key. -/
theorem multi_metadata_absent_for_all_unsupported_input :
    (multi_batch_process okPool okEnv ⟨0, []⟩ 4 false [] 7 ["b.txt"] "o"
        true).result.processing_time = none
    ∧ (multi_batch_process okPool okEnv ⟨0, []⟩ 4 false [] 7 ["b.txt"] "o"
        true).result.workers_used = none := by
  constructor <;> decide

end ImageCrop
